import Mathlib

/-!
Shallow embedding of `ymd_utility.py` (Quantastic-Research/ymd_utility).

Python strings are modelled as `List Char`; the CPython `datetime.date` /
`datetime.datetime` values reachable in this code are modelled as triples of
integers (`PyDate`), since the library itself only ever produces midnight
datetimes and discards any time-of-day component.  Python exceptions are
modelled with `Except PyErr` (`ValueError` / `OverflowError`); a function that
can only raise `ValueError` and whose callers do not distinguish the message is
modelled with `Option` where noted.  Day-level `timedelta` arithmetic of
`datetime` is modelled as iterated day-successor / day-predecessor on valid
Gregorian dates, bounded by the `datetime` range 0001-01-01 .. 9999-12-31
(stepping outside raises `OverflowError` in CPython).
-/

/-- Python exception kinds reachable in this module. -/
inductive PyErr where
  | valueError
  | overflowError
deriving DecidableEq, Repr

/-- The ASCII digit class `[0-9]` of the regex, and of `str.isdigit` for our inputs. -/
def isDigitC (c : Char) : Bool := 48 ≤ c.toNat && c.toNat ≤ 57

/-- ASCII whitespace stripped by Python `int(str)` (space, TAB, LF, VT, FF, CR). -/
def isPySpace (c : Char) : Bool :=
  c.toNat = 32 || c.toNat = 9 || c.toNat = 10 || c.toNat = 11 || c.toNat = 12 || c.toNat = 13

/-- Numeric value of a digit character. -/
def digitVal (c : Char) : Int := (c.toNat : Int) - 48

/-- The digit character for a value in 0..9 (used to model `%d` formatting). -/
def digitChar (k : Int) : Char :=
  if k = 0 then '0'
  else if k = 1 then '1'
  else if k = 2 then '2'
  else if k = 3 then '3'
  else if k = 4 then '4'
  else if k = 5 then '5'
  else if k = 6 then '6'
  else if k = 7 then '7'
  else if k = 8 then '8'
  else '9'

/-- Zero-padded 2-digit rendering (`%02d`) of an integer in 0..99. -/
def pad2 (n : Int) : List Char := [digitChar (n / 10 % 10), digitChar (n % 10)]

/-- Zero-padded 4-digit rendering (`%04d`) of an integer in 0..9999. -/
def pad4 (n : Int) : List Char :=
  [digitChar (n / 1000 % 10), digitChar (n / 100 % 10), digitChar (n / 10 % 10),
   digitChar (n % 10)]

/-- Python `str.split(sep)` for a single-character separator: `"a-b".split("-") = ["a","b"]`,
`"".split("-") = [""]`, `"-".split("-") = ["", ""]`. -/
def splitOnChar (sep : Char) : List Char → List (List Char)
  | [] => [[]]
  | x :: xs =>
    if x = sep then [] :: splitOnChar sep xs
    else
      match splitOnChar sep xs with
      | g :: gs => (x :: g) :: gs
      | [] => [[x]]

/-- Digit-run automaton of CPython `int(str)`: digits with single underscores
allowed only between digits.  `last` records whether the previous character was
a digit (so an underscore is legal and the run may end). -/
def pyDigitsAux : Int → Bool → List Char → Option Int
  | acc, last, [] => if last then some acc else none
  | acc, last, c :: cs =>
    if isDigitC c then pyDigitsAux (10 * acc + digitVal c) true cs
    else if c = '_' ∧ last then pyDigitsAux acc false cs
    else none

/-- Sign handling of CPython `int(str)` after whitespace stripping. -/
def pyIntCore : List Char → Option Int
  | [] => none
  | c :: cs =>
    if c = '+' then pyDigitsAux 0 false cs
    else if c = '-' then (pyDigitsAux 0 false cs).map (fun n => -n)
    else pyDigitsAux 0 false (c :: cs)

/-- Strip leading and trailing Python whitespace. -/
def pyStrip (s : List Char) : List Char :=
  ((s.dropWhile isPySpace).reverse.dropWhile isPySpace).reverse

/-- CPython `int(str)`: strip whitespace, optional sign, digit run with
underscore separators; `none` models the `ValueError` raised on failure.
The model is exact on ASCII text; CPython additionally accepts non-ASCII
decimal digits and whitespace, so theorems whose hypotheses assert a parse
FAILURE of this model are stated for ASCII inputs only. -/
def pyInt (s : List Char) : Option Int := pyIntCore (pyStrip s)

/-- Gregorian leap-year rule used by `datetime.date`. -/
def isLeap (y : Int) : Bool := y % 4 = 0 && (y % 100 ≠ 0 || y % 400 = 0)

/-- Length of a month as in `calendar`/`datetime` (month arguments outside 1..12
never reach this in valid dates). -/
def daysInMonth (y m : Int) : Int :=
  if m = 2 then (if isLeap y then 29 else 28)
  else if m = 4 ∨ m = 6 ∨ m = 9 ∨ m = 11 then 30
  else 31

/-- Validity check of `datetime.date(y, m, d)` / `datetime.datetime(y, m, d)`:
CPython restricts years to 1..9999 and raises `ValueError` otherwise. -/
def dateValid (y m d : Int) : Bool :=
  decide (1 ≤ y ∧ y ≤ 9999 ∧ 1 ≤ m ∧ m ≤ 12 ∧ 1 ≤ d ∧ d ≤ daysInMonth y m)

/-- Model of a CPython `datetime.date` value (also used for the midnight
`datetime.datetime` values this library produces; the time part is always
zero and is discarded by `_ymd_from_datetime`). -/
structure PyDate where
  y : Int
  m : Int
  d : Int
deriving DecidableEq, Repr

/-- A `PyDate` triple that `datetime.date` would accept. -/
def validD (x : PyDate) : Bool := dateValid x.y x.m x.d

/-- The anchored-at-start, unanchored-at-end test performed by
`re.compile(r"[0-9]{4}-[0-9]{2}-[0-9]{2}").match(s)`: only the first ten
characters are constrained, anything may follow. -/
def ymdShapeAtStart : List Char → Bool
  | c1 :: c2 :: c3 :: c4 :: s1 :: c5 :: c6 :: s2 :: c7 :: c8 :: _ =>
    isDigitC c1 && isDigitC c2 && isDigitC c3 && isDigitC c4 && s1 == '-' &&
    isDigitC c5 && isDigitC c6 && s2 == '-' && isDigitC c7 && isDigitC c8
  | _ => false

/-- A Python int that fits the platform C `int` (32-bit signed): the
argument conversion of `datetime.date(...)` raises `OverflowError` — not
`ValueError` — outside this range. -/
def fitsCInt (n : Int) : Bool := decide (-2147483648 ≤ n ∧ n ≤ 2147483647)

/-- Embedding of `is_ymd` (ymd_utility.py lines 10-29).  The regex match is a
prefix match; the tuple unpacking `year, month, day = ymd_date.split("-")` sits
OUTSIDE the `try`, so a string with more than two hyphens whose first ten
characters match the pattern raises an uncaught `ValueError`, modelled as
`.error .valueError`.  `int()` failures and `date()`'s `ValueError` inside the
`try` yield `.ok false`; but when a converted component exceeds the C `int`
range, `date()` raises `OverflowError`, which `except ValueError` does NOT
catch and which therefore escapes `is_ymd`, modelled as
`.error .overflowError`. -/
def is_ymd (s : List Char) : Except PyErr Bool :=
  if ymdShapeAtStart s = false then .ok false
  else
    match splitOnChar '-' s with
    | [y, m, d] =>
      match pyInt y, pyInt m, pyInt d with
      | some yi, some mi, some di =>
        if fitsCInt yi && fitsCInt mi && fitsCInt di then .ok (dateValid yi mi di)
        else .error .overflowError
      | _, _, _ => .ok false
    | _ => .error .valueError

/-- Python `str(date)` = ISO format `%04d-%02d-%02d` (for the years 1..9999
that `date` admits). -/
def pyDateStr (x : PyDate) : List Char :=
  pad4 x.y ++ '-' :: (pad2 x.m ++ '-' :: pad2 x.d)

/-- Embedding of `is_ymd_date` (lines 31-42): stringify and delegate. -/
def is_ymd_date (x : PyDate) : Except PyErr Bool := is_ymd (pyDateStr x)

/-- Embedding of `is_ymd_datetime` (lines 44-58): `str(datetime)` is
`"YYYY-MM-DD HH:MM:SS"`; `.split(" ")[0]` recovers exactly `pyDateStr`, so this
coincides with `is_ymd_date` on our midnight datetimes. -/
def is_ymd_datetime (x : PyDate) : Except PyErr Bool := is_ymd (pyDateStr x)

/-- The `YMDDate` class: the three stored attributes are the *strings*
`_year`, `_month`, `_day` (constant tables and the unused `_holidays` list are
omitted). -/
structure YMDDate where
  year : List Char
  month : List Char
  day : List Char
deriving DecidableEq, Repr

/-- The instance produced from a `date`/`datetime` value: components are the
hyphen-split groups of the zero-padded ISO string. -/
def canonicalYMD (x : PyDate) : YMDDate := ⟨pad4 x.y, pad2 x.m, pad2 x.d⟩

/-- Embedding of `YMDDate.__init__` on a `str` argument (lines 98-102 plus
`_ymd_from_string`, lines 515-527).  All failure paths raise `ValueError`:
either the explicit `raise`, or the `ValueError` propagating out of `is_ymd`'s
tuple unpacking. -/
def mkYMDFromString (s : List Char) : Except PyErr YMDDate :=
  match is_ymd s with
  | .ok true =>
    match splitOnChar '-' s with
    | [y, m, d] => .ok ⟨y, m, d⟩
    | _ => .error .valueError
  | .ok false => .error .valueError
  | .error e => .error e

/-- Embedding of `YMDDate.__init__` on a `datetime.date` argument (lines
103-107 plus `_ymd_from_date`): stringify, validate, split on hyphens. -/
def mkYMDFromDate (x : PyDate) : Except PyErr YMDDate :=
  match is_ymd_date x with
  | .ok true =>
    match splitOnChar '-' (pyDateStr x) with
    | [y, m, d] => .ok ⟨y, m, d⟩
    | _ => .error .valueError
  | .ok false => .error .valueError
  | .error e => .error e

/-- Embedding of `YMDDate.__init__` on a `datetime.datetime` argument (lines
108-112 plus `_ymd_from_datetime`); the date part of `str(datetime)` equals
`str(date)`, so this coincides with `mkYMDFromDate`. -/
def mkYMDFromDatetime (x : PyDate) : Except PyErr YMDDate := mkYMDFromDate x

/-- Embedding of `YMDDate.to_date` (lines 401-405):
`date_object(int(self._year), int(self._month), int(self._day))`; `none`
models the `ValueError` when a component fails `int()` or the date is invalid. -/
def YMDDate.to_date (a : YMDDate) : Option PyDate :=
  match pyInt a.year, pyInt a.month, pyInt a.day with
  | some y, some m, some d => if dateValid y m d then some ⟨y, m, d⟩ else none
  | _, _, _ => none

/-- Embedding of `YMDDate.to_datetime` (lines 407-411): same integer triple,
midnight time. -/
def YMDDate.to_datetime (a : YMDDate) : Option PyDate := a.to_date

/-- Embedding of `YMDDate.__str__` (lines 509-513). -/
def YMDDate.ymd_str (a : YMDDate) : List Char :=
  a.year ++ '-' :: (a.month ++ '-' :: a.day)

/-- Embedding of `YMDDate.__eq__` restricted to a `YMDDate` right operand
(lines 413-417): componentwise *string* comparison. -/
def YMDDate.eqY (a b : YMDDate) : Bool :=
  a.year == b.year && a.month == b.month && a.day == b.day

/-- Strict lexicographic order on date triples: the comparison CPython's
`date.__gt__`/`date.__ge__` performs. -/
def dateLt (a b : PyDate) : Bool :=
  decide (a.y < b.y ∨ (a.y = b.y ∧ (a.m < b.m ∨ (a.m = b.m ∧ a.d < b.d))))

/-- Embedding of `YMDDate.__gt__` restricted to a `YMDDate` right operand
(lines 439-446): rebuild both `date` objects and compare; `none` models the
`ValueError` if either side's components do not form a valid date. -/
def YMDDate.gtY (a b : YMDDate) : Option Bool :=
  match a.to_date, b.to_date with
  | some x, some y => some (dateLt y x)
  | _, _ => none

/-- Embedding of `YMDDate.__ge__` restricted to a `YMDDate` right operand
(lines 474-481). -/
def YMDDate.geY (a b : YMDDate) : Option Bool :=
  match a.to_date, b.to_date with
  | some x, some y => some (!dateLt x y)
  | _, _ => none

/-- One day forward on the `datetime` range; `none` models the
`OverflowError` past 9999-12-31. -/
def nextDayOpt (x : PyDate) : Option PyDate :=
  if x.d < daysInMonth x.y x.m then some ⟨x.y, x.m, x.d + 1⟩
  else if x.m < 12 then some ⟨x.y, x.m + 1, 1⟩
  else if x.y < 9999 then some ⟨x.y + 1, 1, 1⟩
  else none

/-- One day backward on the `datetime` range; `none` models the
`OverflowError` before 0001-01-01. -/
def prevDayOpt (x : PyDate) : Option PyDate :=
  if 1 < x.d then some ⟨x.y, x.m, x.d - 1⟩
  else if 1 < x.m then some ⟨x.y, x.m - 1, daysInMonth x.y (x.m - 1)⟩
  else if 1 < x.y then some ⟨x.y - 1, 12, 31⟩
  else none

/-- Model of `datetime + timedelta(days = n)` for `n ≥ 0`: `n`-fold day
successor, `none` on overflow. -/
def addDaysOpt : Nat → PyDate → Option PyDate
  | 0, x => some x
  | n + 1, x => (nextDayOpt x).bind (addDaysOpt n)

/-- Model of `datetime - timedelta(days = n)` for `n ≥ 0`. -/
def subDaysOpt : Nat → PyDate → Option PyDate
  | 0, x => some x
  | n + 1, x => (prevDayOpt x).bind (subDaysOpt n)

/-- Embedding of `YMDDate.n_days` (lines 234-252).  The `days is None` guard
is outside the model (the argument is a genuine integer here);
`YMDDate(self.to_datetime() ± timedelta(days = |days|))` re-enters the
constructor on a datetime, i.e. `mkYMDFromDatetime`. -/
def YMDDate.n_days (a : YMDDate) (days : Int) : Except PyErr YMDDate :=
  match a.to_datetime with
  | none => .error .valueError
  | some x =>
    if days > 0 then
      match addDaysOpt days.toNat x with
      | some z => mkYMDFromDatetime z
      | none => .error .overflowError
    else if days < 0 then
      match subDaysOpt (-days).toNat x with
      | some z => mkYMDFromDatetime z
      | none => .error .overflowError
    else mkYMDFromDatetime x

/-- Embedding of `YMDDate.n_months` (lines 274-310).  The zero check precedes
the unit check; `units.upper()` makes the selector case-insensitive;
`timedelta(weeks = w)` is `7 * w` days; an unrecognized unit raises
`ValueError`. -/
def YMDDate.n_months (a : YMDDate) (months : Int) (units : List Char)
    (weeks_per_month : Int) (days_per_month : Int) : Except PyErr YMDDate :=
  if months = 0 then
    match a.to_datetime with
    | some x => mkYMDFromDatetime x
    | none => .error .valueError
  else if units.map Char.toUpper = ['W'] then
    match a.to_datetime with
    | some x =>
      match (if months > 0 then addDaysOpt (7 * |weeks_per_month * months|).toNat x
             else subDaysOpt (7 * |weeks_per_month * months|).toNat x) with
      | some z => mkYMDFromDatetime z
      | none => .error .overflowError
    | none => .error .valueError
  else if units.map Char.toUpper = ['D'] then
    match a.to_datetime with
    | some x =>
      match (if months > 0 then addDaysOpt (|days_per_month * months|).toNat x
             else subDaysOpt (|days_per_month * months|).toNat x) with
      | some z => mkYMDFromDatetime z
      | none => .error .overflowError
    | none => .error .valueError
  else .error .valueError

/-- Embedding of `YMDDate.n_years` (lines 313-348).  The zero check precedes
the unit check; unlike `n_months`, the unit comparison is case-SENSITIVE
(`units == 'D'` / `units == 'W'`, no `.upper()`), with the D branch first. -/
def YMDDate.n_years (a : YMDDate) (years : Int) (units : List Char)
    (days_per_year : Int) (weeks_per_year : Int) : Except PyErr YMDDate :=
  if years = 0 then
    match a.to_datetime with
    | some x => mkYMDFromDatetime x
    | none => .error .valueError
  else if units = ['D'] then
    match a.to_datetime with
    | some x =>
      match (if years > 0 then addDaysOpt (|years * days_per_year|).toNat x
             else subDaysOpt (|years * days_per_year|).toNat x) with
      | some z => mkYMDFromDatetime z
      | none => .error .overflowError
    | none => .error .valueError
  else if units = ['W'] then
    match a.to_datetime with
    | some x =>
      match (if years > 0 then addDaysOpt (7 * |years * weeks_per_year|).toNat x
             else subDaysOpt (7 * |years * weeks_per_year|).toNat x) with
      | some z => mkYMDFromDatetime z
      | none => .error .overflowError
    | none => .error .valueError
  else .error .valueError

/-- Days before year `y` in the proleptic Gregorian calendar
(CPython `datetime._days_before_year`). -/
def daysBeforeYear (y : Int) : Int :=
  (y - 1) * 365 + (y - 1) / 4 - (y - 1) / 100 + (y - 1) / 400

/-- Days before month `m` of year `y` (CPython `datetime._days_before_month`). -/
def daysBeforeMonth (y m : Int) : Int :=
  (if m = 1 then 0
   else if m = 2 then 31
   else if m = 3 then 59
   else if m = 4 then 90
   else if m = 5 then 120
   else if m = 6 then 151
   else if m = 7 then 181
   else if m = 8 then 212
   else if m = 9 then 243
   else if m = 10 then 273
   else if m = 11 then 304
   else 334) + (if 2 < m ∧ isLeap y then 1 else 0)

/-- Proleptic Gregorian ordinal (CPython `date.toordinal`): 0001-01-01 is 1. -/
def toOrdinal (x : PyDate) : Int := daysBeforeYear x.y + daysBeforeMonth x.y x.m + x.d

/-- CPython `date.weekday()`: `(toordinal + 6) % 7`, `0` = Monday. -/
def weekdayD (x : PyDate) : Int := (toOrdinal x + 6) % 7

/-- Embedding of `YMDDate.is_weekend` (lines 184-190): weekday index 5 or 6. -/
def isWeekendD (x : PyDate) : Bool := decide (5 ≤ weekdayD x)

/-- Candidate entries of the `holidays` list accepted by `is_holiday`:
strings, `YMDDate` instances, or anything else (silently skipped by the loop,
which has no `else` arm). -/
inductive HolidayItem where
  | txt (t : List Char)
  | ymd (a : YMDDate)
  | other
deriving Repr

/-- The `for` loop of `YMDDate.is_holiday` (lines 156-173).  A string
candidate whose construction raises `ValueError` makes the whole call return
`None` (`except ValueError` at line 161 catches it, including the one
propagating from `is_ymd`'s unpacking); but an `OverflowError` escaping the
constructor (day/month/year group beyond the C `int` range) is NOT caught and
propagates out of `is_holiday`, modelled as `.error .overflowError`.  A
matching candidate returns `True`; exhaustion returns `False`.  The result
type `Except PyErr (Option Bool)` separates raising (`.error`) from the
returned tri-state value (`.ok none` is Python's `None`). -/
def isHolidayLoop (a : YMDDate) : List HolidayItem → Except PyErr (Option Bool)
  | [] => .ok (some false)
  | .txt t :: rest =>
    match mkYMDFromString t with
    | .error PyErr.valueError => .ok none
    | .error PyErr.overflowError => .error PyErr.overflowError
    | .ok h => if YMDDate.eqY h a then .ok (some true) else isHolidayLoop a rest
  | .ymd h :: rest => if YMDDate.eqY h a then .ok (some true) else isHolidayLoop a rest
  | .other :: rest => isHolidayLoop a rest

/-- Embedding of `YMDDate.is_holiday` (lines 145-173): empty-list early
return, then the loop. -/
def YMDDate.is_holiday (a : YMDDate) (holidays : List HolidayItem) :
    Except PyErr (Option Bool) :=
  if holidays.length = 0 then .ok (some false) else isHolidayLoop a holidays

/-- The `while` loop of `YMDDate.next_business_day` (lines 350-361), on the
underlying date triples; `hol` abstracts the external
`USFederalHolidayCalendar` membership test of `is_us_federal_holiday`
(pandas is outside this repository; the spec treats it as an external
provider).  Fuel bounds the loop; `none` covers both fuel exhaustion and the
`OverflowError` of `tomorrow()` at the end of the date range.  Each iteration
step corresponds to `tomorrow()` followed by the candidate's queries: a
candidate built by `tomorrow()` is `canonicalYMD z` and its `to_date` is
exactly `z` (proved below as `to_date_canonicalYMD`). -/
def nbdLoop (hol : PyDate → Bool) : Nat → PyDate → Option PyDate
  | 0, _ => none
  | fuel + 1, x =>
    if hol x || isWeekendD x then
      match nextDayOpt x with
      | none => none
      | some z => nbdLoop hol fuel z
    else some x

/-- Embedding of `YMDDate.next_business_day` (lines 350-361): start from
`tomorrow()`, loop while holiday-or-weekend, return the surviving candidate
(a canonical instance, as every `tomorrow()` result is). -/
def YMDDate.next_business_day (hol : PyDate → Bool) (fuel : Nat) (a : YMDDate) :
    Option YMDDate :=
  match a.to_datetime with
  | none => none
  | some x =>
    match nextDayOpt x with
    | none => none
    | some z => (nbdLoop hol fuel z).map canonicalYMD

/-- The valid-date invariant of claim C5, read off an instance's stored
strings: all three components survive `int()` and the integer triple is
accepted by `datetime.date`. -/
def validInstance (a : YMDDate) : Bool :=
  match pyInt a.year, pyInt a.month, pyInt a.day with
  | some y, some m, some d => dateValid y m d
  | _, _, _ => false

/-- An instance whose stored strings are the canonical zero-padded rendering
of a valid date: the shape every instance built from a `date`, a `datetime`,
or an exactly-shaped ISO string has. -/
def isCanonical (a : YMDDate) : Bool :=
  match a.to_date with
  | some x => a == canonicalYMD x
  | none => false

/-- Integer-value equality of two instances (components compared after
`int()` conversion), the reading of "equal-valued" used by the spec's
arithmetic claims. -/
def valueEq (a b : YMDDate) : Bool :=
  pyInt a.year == pyInt b.year && pyInt a.month == pyInt b.month &&
  pyInt a.day == pyInt b.day

/-- The exact `YYYY-MM-DD` shape the spec describes for `is_ymd` (4 digits,
hyphen, 2 digits, hyphen, 2 digits, nothing more).  This definition follows
the SPEC's words, for comparison with the code's `is_ymd`. -/
def specExactShape : List Char → Bool
  | [c1, c2, c3, c4, s1, c5, c6, s2, c7, c8] =>
    isDigitC c1 && isDigitC c2 && isDigitC c3 && isDigitC c4 && s1 == '-' &&
    isDigitC c5 && isDigitC c6 && s2 == '-' && isDigitC c7 && isDigitC c8
  | _ => false

/-! ### Character and digit lemmas -/

theorem isDigitC_toNat {c : Char} (h : isDigitC c = true) :
    48 ≤ c.toNat ∧ c.toNat ≤ 57 := by
  simpa [isDigitC, Bool.and_eq_true, decide_eq_true_eq] using h

theorem isDigitC_not_space {c : Char} (h : isDigitC c = true) : isPySpace c = false := by
  obtain ⟨h1, h2⟩ := isDigitC_toNat h
  simp only [isPySpace, Bool.or_eq_false_iff, decide_eq_false_iff_not]
  omega

theorem isDigitC_ne_hyphen {c : Char} (h : isDigitC c = true) : c ≠ '-' := by
  intro he
  rw [he] at h
  exact absurd h (by decide)

theorem isDigitC_ne_plus {c : Char} (h : isDigitC c = true) : c ≠ '+' := by
  intro he
  rw [he] at h
  exact absurd h (by decide)

theorem isDigitC_ne_underscore {c : Char} (h : isDigitC c = true) : c ≠ '_' := by
  intro he
  rw [he] at h
  exact absurd h (by decide)

theorem digitVal_bounds {c : Char} (h : isDigitC c = true) :
    0 ≤ digitVal c ∧ digitVal c ≤ 9 := by
  obtain ⟨h1, h2⟩ := isDigitC_toNat h
  unfold digitVal
  omega

theorem digitChar_isDigit (k : Int) : isDigitC (digitChar k) = true := by
  unfold digitChar
  split_ifs <;> decide

theorem digitVal_digitChar {k : Int} (h0 : 0 ≤ k) (h9 : k ≤ 9) :
    digitVal (digitChar k) = k := by
  unfold digitChar
  split_ifs with e0 e1 e2 e3 e4 e5 e6 e7 e8
  · rw [e0]; decide
  · rw [e1]; decide
  · rw [e2]; decide
  · rw [e3]; decide
  · rw [e4]; decide
  · rw [e5]; decide
  · rw [e6]; decide
  · rw [e7]; decide
  · rw [e8]; decide
  · have e9 : k = 9 := by omega
    rw [e9]; decide

/-! ### Python `int` on all-digit strings -/

theorem dropWhile_eq_self_of_false {p : Char → Bool} :
    ∀ {s : List Char}, (∀ c ∈ s, p c = false) → s.dropWhile p = s
  | [], _ => rfl
  | c :: cs, h => by
    simp only [List.dropWhile_cons, h c (by simp)]
    simp

theorem pyStrip_eq_self {s : List Char} (h : ∀ c ∈ s, isPySpace c = false) :
    pyStrip s = s := by
  unfold pyStrip
  rw [dropWhile_eq_self_of_false h]
  rw [dropWhile_eq_self_of_false (by intro c hc; exact h c (List.mem_reverse.mp hc))]
  exact List.reverse_reverse s

theorem pyInt_two {a b : Char} (ha : isDigitC a = true) (hb : isDigitC b = true) :
    pyInt [a, b] = some (10 * digitVal a + digitVal b) := by
  unfold pyInt
  rw [pyStrip_eq_self (by
    intro c hc
    simp only [List.mem_cons, List.not_mem_nil, or_false] at hc
    rcases hc with rfl | rfl
    · exact isDigitC_not_space ha
    · exact isDigitC_not_space hb)]
  simp only [pyIntCore, if_neg (isDigitC_ne_plus ha), if_neg (isDigitC_ne_hyphen ha),
    pyDigitsAux, ha, hb, if_true, if_pos]
  norm_num

theorem pyInt_four {a b c d : Char} (ha : isDigitC a = true) (hb : isDigitC b = true)
    (hc : isDigitC c = true) (hd : isDigitC d = true) :
    pyInt [a, b, c, d] =
      some (1000 * digitVal a + 100 * digitVal b + 10 * digitVal c + digitVal d) := by
  unfold pyInt
  rw [pyStrip_eq_self (by
    intro e he
    simp only [List.mem_cons, List.not_mem_nil, or_false] at he
    rcases he with rfl | rfl | rfl | rfl
    · exact isDigitC_not_space ha
    · exact isDigitC_not_space hb
    · exact isDigitC_not_space hc
    · exact isDigitC_not_space hd)]
  simp only [pyIntCore, if_neg (isDigitC_ne_plus ha), if_neg (isDigitC_ne_hyphen ha),
    pyDigitsAux, ha, hb, hc, hd, if_true, if_pos]
  norm_num
  ring

theorem pyInt_pad2 {n : Int} (h0 : 0 ≤ n) (h99 : n ≤ 99) : pyInt (pad2 n) = some n := by
  unfold pad2
  rw [pyInt_two (digitChar_isDigit _) (digitChar_isDigit _)]
  rw [digitVal_digitChar (by omega) (by omega), digitVal_digitChar (by omega) (by omega)]
  congr 1
  omega

theorem pyInt_pad4 {n : Int} (h0 : 0 ≤ n) (h9999 : n ≤ 9999) : pyInt (pad4 n) = some n := by
  unfold pad4
  rw [pyInt_four (digitChar_isDigit _) (digitChar_isDigit _) (digitChar_isDigit _)
    (digitChar_isDigit _)]
  rw [digitVal_digitChar (by omega) (by omega), digitVal_digitChar (by omega) (by omega),
    digitVal_digitChar (by omega) (by omega), digitVal_digitChar (by omega) (by omega)]
  congr 1
  omega

/-! ### `str.split("-")` lemmas -/

theorem splitOnChar_sepFree {sep : Char} :
    ∀ {s : List Char}, (∀ c ∈ s, c ≠ sep) → splitOnChar sep s = [s]
  | [], _ => rfl
  | x :: xs, h => by
    simp only [splitOnChar, if_neg (h x (by simp))]
    rw [splitOnChar_sepFree (fun c hc => h c (by simp [hc]))]

theorem splitOnChar_append {sep : Char} {t : List Char} :
    ∀ {s : List Char}, (∀ c ∈ s, c ≠ sep) →
      splitOnChar sep (s ++ sep :: t) = s :: splitOnChar sep t
  | [], _ => by simp [splitOnChar]
  | x :: xs, h => by
    simp only [List.cons_append, splitOnChar, if_neg (h x (by simp)), List.append_eq]
    rw [splitOnChar_append (fun c hc => h c (by simp [hc]))]

theorem splitOnChar_ymd {y m d : List Char} (hy : ∀ c ∈ y, c ≠ '-')
    (hm : ∀ c ∈ m, c ≠ '-') (hd : ∀ c ∈ d, c ≠ '-') :
    splitOnChar '-' (y ++ '-' :: (m ++ '-' :: d)) = [y, m, d] := by
  rw [splitOnChar_append hy, splitOnChar_append hm, splitOnChar_sepFree hd]

theorem ymdShapeAtStart_exact {y1 y2 y3 y4 m1 m2 d1 d2 : Char}
    (h1 : isDigitC y1 = true) (h2 : isDigitC y2 = true) (h3 : isDigitC y3 = true)
    (h4 : isDigitC y4 = true) (h5 : isDigitC m1 = true) (h6 : isDigitC m2 = true)
    (h7 : isDigitC d1 = true) (h8 : isDigitC d2 = true) :
    ymdShapeAtStart [y1, y2, y3, y4, '-', m1, m2, '-', d1, d2] = true := by
  simp [ymdShapeAtStart, h1, h2, h3, h4, h5, h6, h7, h8]

theorem splitOnChar_exact {y1 y2 y3 y4 m1 m2 d1 d2 : Char}
    (h1 : isDigitC y1 = true) (h2 : isDigitC y2 = true) (h3 : isDigitC y3 = true)
    (h4 : isDigitC y4 = true) (h5 : isDigitC m1 = true) (h6 : isDigitC m2 = true)
    (h7 : isDigitC d1 = true) (h8 : isDigitC d2 = true) :
    splitOnChar '-' [y1, y2, y3, y4, '-', m1, m2, '-', d1, d2] =
      [[y1, y2, y3, y4], [m1, m2], [d1, d2]] := by
  have hy : ∀ c ∈ [y1, y2, y3, y4], c ≠ '-' := by
    intro c hc
    simp only [List.mem_cons, List.not_mem_nil, or_false] at hc
    rcases hc with rfl | rfl | rfl | rfl
    exacts [isDigitC_ne_hyphen h1, isDigitC_ne_hyphen h2, isDigitC_ne_hyphen h3,
      isDigitC_ne_hyphen h4]
  have hm : ∀ c ∈ [m1, m2], c ≠ '-' := by
    intro c hc
    simp only [List.mem_cons, List.not_mem_nil, or_false] at hc
    rcases hc with rfl | rfl
    exacts [isDigitC_ne_hyphen h5, isDigitC_ne_hyphen h6]
  have hd : ∀ c ∈ [d1, d2], c ≠ '-' := by
    intro c hc
    simp only [List.mem_cons, List.not_mem_nil, or_false] at hc
    rcases hc with rfl | rfl
    exacts [isDigitC_ne_hyphen h7, isDigitC_ne_hyphen h8]
  simpa using splitOnChar_ymd hy hm hd

theorem is_ymd_exact {y1 y2 y3 y4 m1 m2 d1 d2 : Char}
    (h1 : isDigitC y1 = true) (h2 : isDigitC y2 = true) (h3 : isDigitC y3 = true)
    (h4 : isDigitC y4 = true) (h5 : isDigitC m1 = true) (h6 : isDigitC m2 = true)
    (h7 : isDigitC d1 = true) (h8 : isDigitC d2 = true) :
    is_ymd [y1, y2, y3, y4, '-', m1, m2, '-', d1, d2] =
      .ok (dateValid
        (1000 * digitVal y1 + 100 * digitVal y2 + 10 * digitVal y3 + digitVal y4)
        (10 * digitVal m1 + digitVal m2) (10 * digitVal d1 + digitVal d2)) := by
  obtain ⟨b1a, b1b⟩ := digitVal_bounds h1
  obtain ⟨b2a, b2b⟩ := digitVal_bounds h2
  obtain ⟨b3a, b3b⟩ := digitVal_bounds h3
  obtain ⟨b4a, b4b⟩ := digitVal_bounds h4
  obtain ⟨b5a, b5b⟩ := digitVal_bounds h5
  obtain ⟨b6a, b6b⟩ := digitVal_bounds h6
  obtain ⟨b7a, b7b⟩ := digitVal_bounds h7
  obtain ⟨b8a, b8b⟩ := digitVal_bounds h8
  unfold is_ymd
  rw [ymdShapeAtStart_exact h1 h2 h3 h4 h5 h6 h7 h8,
    splitOnChar_exact h1 h2 h3 h4 h5 h6 h7 h8]
  simp only [Bool.true_eq_false, if_false, pyInt_four h1 h2 h3 h4, pyInt_two h5 h6,
    pyInt_two h7 h8]
  rw [if_pos
    (show (fitsCInt
        (1000 * digitVal y1 + 100 * digitVal y2 + 10 * digitVal y3 + digitVal y4) &&
      fitsCInt (10 * digitVal m1 + digitVal m2) &&
      fitsCInt (10 * digitVal d1 + digitVal d2)) = true by
      simp only [fitsCInt, Bool.and_eq_true, decide_eq_true_eq]
      refine ⟨⟨⟨by omega, by omega⟩, by omega, by omega⟩, by omega, by omega⟩)]

theorem mkYMDFromString_exact {y1 y2 y3 y4 m1 m2 d1 d2 : Char}
    (h1 : isDigitC y1 = true) (h2 : isDigitC y2 = true) (h3 : isDigitC y3 = true)
    (h4 : isDigitC y4 = true) (h5 : isDigitC m1 = true) (h6 : isDigitC m2 = true)
    (h7 : isDigitC d1 = true) (h8 : isDigitC d2 = true)
    (hv : dateValid
      (1000 * digitVal y1 + 100 * digitVal y2 + 10 * digitVal y3 + digitVal y4)
      (10 * digitVal m1 + digitVal m2) (10 * digitVal d1 + digitVal d2) = true) :
    mkYMDFromString [y1, y2, y3, y4, '-', m1, m2, '-', d1, d2] =
      .ok ⟨[y1, y2, y3, y4], [m1, m2], [d1, d2]⟩ := by
  unfold mkYMDFromString
  rw [is_ymd_exact h1 h2 h3 h4 h5 h6 h7 h8, hv,
    splitOnChar_exact h1 h2 h3 h4 h5 h6 h7 h8]

/-! ### Canonical instances built from `date`/`datetime` values -/

theorem validD_elim {x : PyDate} (h : validD x = true) :
    1 ≤ x.y ∧ x.y ≤ 9999 ∧ 1 ≤ x.m ∧ x.m ≤ 12 ∧ 1 ≤ x.d ∧ x.d ≤ daysInMonth x.y x.m := by
  simpa [validD, dateValid] using h

theorem pyDateStr_eq (x : PyDate) :
    pyDateStr x = [digitChar (x.y / 1000 % 10), digitChar (x.y / 100 % 10),
      digitChar (x.y / 10 % 10), digitChar (x.y % 10), '-',
      digitChar (x.m / 10 % 10), digitChar (x.m % 10), '-',
      digitChar (x.d / 10 % 10), digitChar (x.d % 10)] := by
  simp [pyDateStr, pad4, pad2]

theorem is_ymd_date_valid {x : PyDate} (h : validD x = true) :
    is_ymd_date x = .ok true := by
  obtain ⟨hy1, hy2, hm1, hm2, hd1, hd2⟩ := validD_elim h
  unfold is_ymd_date
  rw [pyDateStr_eq, is_ymd_exact (digitChar_isDigit _) (digitChar_isDigit _)
    (digitChar_isDigit _) (digitChar_isDigit _) (digitChar_isDigit _) (digitChar_isDigit _)
    (digitChar_isDigit _) (digitChar_isDigit _)]
  congr 1
  have e1 : 1000 * digitVal (digitChar (x.y / 1000 % 10)) +
      100 * digitVal (digitChar (x.y / 100 % 10)) +
      10 * digitVal (digitChar (x.y / 10 % 10)) + digitVal (digitChar (x.y % 10)) = x.y := by
    rw [digitVal_digitChar (by omega) (by omega), digitVal_digitChar (by omega) (by omega),
      digitVal_digitChar (by omega) (by omega), digitVal_digitChar (by omega) (by omega)]
    omega
  have e2 : 10 * digitVal (digitChar (x.m / 10 % 10)) + digitVal (digitChar (x.m % 10)) =
      x.m := by
    rw [digitVal_digitChar (by omega) (by omega), digitVal_digitChar (by omega) (by omega)]
    omega
  have e3 : 10 * digitVal (digitChar (x.d / 10 % 10)) + digitVal (digitChar (x.d % 10)) =
      x.d := by
    have hub : x.d ≤ 31 := by
      have : daysInMonth x.y x.m ≤ 31 := by
        unfold daysInMonth
        split_ifs <;> omega
      omega
    rw [digitVal_digitChar (by omega) (by omega), digitVal_digitChar (by omega) (by omega)]
    omega
  rw [e1, e2, e3]
  exact h

theorem splitOnChar_pyDateStr (x : PyDate) :
    splitOnChar '-' (pyDateStr x) = [pad4 x.y, pad2 x.m, pad2 x.d] := by
  rw [pyDateStr_eq, splitOnChar_exact (digitChar_isDigit _) (digitChar_isDigit _)
    (digitChar_isDigit _) (digitChar_isDigit _) (digitChar_isDigit _) (digitChar_isDigit _)
    (digitChar_isDigit _) (digitChar_isDigit _)]
  simp [pad4, pad2]

theorem mkYMDFromDate_valid {x : PyDate} (h : validD x = true) :
    mkYMDFromDate x = .ok (canonicalYMD x) := by
  unfold mkYMDFromDate
  rw [is_ymd_date_valid h, splitOnChar_pyDateStr]
  rfl

theorem mkYMDFromDatetime_valid {x : PyDate} (h : validD x = true) :
    mkYMDFromDatetime x = .ok (canonicalYMD x) := mkYMDFromDate_valid h

theorem daysInMonth_ub (y m : Int) : daysInMonth y m ≤ 31 := by
  unfold daysInMonth
  split_ifs <;> omega

theorem daysInMonth_lb (y m : Int) : 28 ≤ daysInMonth y m := by
  unfold daysInMonth
  split_ifs <;> omega

theorem to_date_canonicalYMD {x : PyDate} (h : validD x = true) :
    (canonicalYMD x).to_date = some x := by
  obtain ⟨hy1, hy2, hm1, hm2, hd1, hd2⟩ := validD_elim h
  have hub := daysInMonth_ub x.y x.m
  unfold YMDDate.to_date canonicalYMD
  simp only [pyInt_pad4 (by omega : (0 : Int) ≤ x.y) (by omega : x.y ≤ 9999),
    pyInt_pad2 (by omega : (0 : Int) ≤ x.m) (by omega : x.m ≤ 99),
    pyInt_pad2 (by omega : (0 : Int) ≤ x.d) (by omega : x.d ≤ 99)]
  rw [if_pos (show dateValid x.y x.m x.d = true by simpa [validD] using h)]

theorem to_datetime_canonicalYMD {x : PyDate} (h : validD x = true) :
    (canonicalYMD x).to_datetime = some x := to_date_canonicalYMD h

theorem to_date_elim {a : YMDDate} {x : PyDate} (h : a.to_date = some x) :
    pyInt a.year = some x.y ∧ pyInt a.month = some x.m ∧ pyInt a.day = some x.d ∧
      validD x = true := by
  unfold YMDDate.to_date at h
  split at h
  case h_1 yv mv dv hy hm hd =>
    split at h
    case isTrue hvalid =>
      obtain rfl : (⟨yv, mv, dv⟩ : PyDate) = x := by injection h
      exact ⟨hy, hm, hd, by simpa [validD] using hvalid⟩
    case isFalse => exact absurd h (by simp)
  case h_2 => exact absurd h (by simp)

theorem validInstance_of_to_date {a : YMDDate} {x : PyDate} (h : a.to_date = some x) :
    validInstance a = true := by
  obtain ⟨hy, hm, hd, hv⟩ := to_date_elim h
  unfold validInstance
  rw [hy, hm, hd]
  simpa [validD] using hv

theorem isCanonical_elim {a : YMDDate} (h : isCanonical a = true) :
    ∃ x, validD x = true ∧ a.to_date = some x ∧ a = canonicalYMD x := by
  unfold isCanonical at h
  split at h
  case h_1 x heq => exact ⟨x, (to_date_elim heq).2.2.2, heq, by simpa using h⟩
  case h_2 => exact absurd h (by simp)

theorem isCanonical_canonicalYMD {x : PyDate} (h : validD x = true) :
    isCanonical (canonicalYMD x) = true := by
  unfold isCanonical
  rw [to_date_canonicalYMD h]
  simp

theorem eqY_iff {a b : YMDDate} :
    YMDDate.eqY a b = true ↔ a.year = b.year ∧ a.month = b.month ∧ a.day = b.day := by
  simp [YMDDate.eqY, and_assoc]

theorem valueEq_iff {a b : YMDDate} :
    valueEq a b = true ↔ pyInt a.year = pyInt b.year ∧ pyInt a.month = pyInt b.month ∧
      pyInt a.day = pyInt b.day := by
  simp [valueEq, and_assoc]

theorem valueEq_canonicalYMD {a : YMDDate} {x : PyDate} (h : a.to_date = some x) :
    valueEq (canonicalYMD x) a = true := by
  obtain ⟨hy, hm, hd, hv⟩ := to_date_elim h
  obtain ⟨hy1, hy2, hm1, hm2, hd1, hd2⟩ := validD_elim hv
  have hub := daysInMonth_ub x.y x.m
  rw [valueEq_iff]
  unfold canonicalYMD
  refine ⟨?_, ?_, ?_⟩
  · rw [hy, pyInt_pad4 (by omega : (0 : Int) ≤ x.y) (by omega : x.y ≤ 9999)]
  · rw [hm, pyInt_pad2 (by omega : (0 : Int) ≤ x.m) (by omega : x.m ≤ 99)]
  · rw [hd, pyInt_pad2 (by omega : (0 : Int) ≤ x.d) (by omega : x.d ≤ 99)]

theorem canonicalYMD_inj {x z : PyDate} (hx : validD x = true) (hz : validD z = true)
    (h : canonicalYMD x = canonicalYMD z) : x = z := by
  have h1 : (canonicalYMD x).to_date = (canonicalYMD z).to_date := by rw [h]
  rw [to_date_canonicalYMD hx, to_date_canonicalYMD hz] at h1
  injection h1

/-! ### Day-successor arithmetic -/

theorem nextDayOpt_valid {x z : PyDate} (hx : validD x = true)
    (h : nextDayOpt x = some z) : validD z = true := by
  obtain ⟨xy, xm, xd⟩ := x
  obtain ⟨hy1, hy2, hm1, hm2, hd1, hd2⟩ := validD_elim hx
  simp only at hy1 hy2 hm1 hm2 hd1 hd2
  unfold nextDayOpt at h
  simp only at h
  split_ifs at h with h1 h2 h3
  · obtain rfl : (⟨xy, xm, xd + 1⟩ : PyDate) = z := by injection h
    simp only [validD, dateValid, decide_eq_true_eq]
    exact ⟨by omega, by omega, by omega, by omega, by omega, by omega⟩
  · obtain rfl : (⟨xy, xm + 1, 1⟩ : PyDate) = z := by injection h
    have := daysInMonth_lb xy (xm + 1)
    simp only [validD, dateValid, decide_eq_true_eq]
    exact ⟨by omega, by omega, by omega, by omega, by omega, by omega⟩
  · obtain rfl : (⟨xy + 1, 1, 1⟩ : PyDate) = z := by injection h
    have := daysInMonth_lb (xy + 1) 1
    simp only [validD, dateValid, decide_eq_true_eq]
    exact ⟨by omega, by omega, by omega, by omega, by omega, by omega⟩

theorem prevDayOpt_valid {x z : PyDate} (hx : validD x = true)
    (h : prevDayOpt x = some z) : validD z = true := by
  obtain ⟨xy, xm, xd⟩ := x
  obtain ⟨hy1, hy2, hm1, hm2, hd1, hd2⟩ := validD_elim hx
  simp only at hy1 hy2 hm1 hm2 hd1 hd2
  unfold prevDayOpt at h
  simp only at h
  split_ifs at h with h1 h2 h3
  · obtain rfl : (⟨xy, xm, xd - 1⟩ : PyDate) = z := by injection h
    simp only [validD, dateValid, decide_eq_true_eq]
    exact ⟨by omega, by omega, by omega, by omega, by omega, by omega⟩
  · obtain rfl : (⟨xy, xm - 1, daysInMonth xy (xm - 1)⟩ : PyDate) = z := by injection h
    have := daysInMonth_lb xy (xm - 1)
    simp only [validD, dateValid, decide_eq_true_eq]
    exact ⟨by omega, by omega, by omega, by omega, by omega, by omega⟩
  · obtain rfl : (⟨xy - 1, 12, 31⟩ : PyDate) = z := by injection h
    have h31 : daysInMonth (xy - 1) 12 = 31 := by
      unfold daysInMonth
      norm_num
    simp only [validD, dateValid, decide_eq_true_eq]
    exact ⟨by omega, by omega, by omega, by omega, by omega, by omega⟩

theorem prevDay_nextDay {x z : PyDate} (hx : validD x = true)
    (h : nextDayOpt x = some z) : prevDayOpt z = some x := by
  obtain ⟨xy, xm, xd⟩ := x
  obtain ⟨hy1, hy2, hm1, hm2, hd1, hd2⟩ := validD_elim hx
  simp only at hy1 hy2 hm1 hm2 hd1 hd2
  unfold nextDayOpt at h
  simp only at h
  split_ifs at h with h1 h2 h3
  · obtain rfl : (⟨xy, xm, xd + 1⟩ : PyDate) = z := by injection h
    unfold prevDayOpt
    simp only
    rw [if_pos (by omega)]
    simp only [Option.some.injEq, PyDate.mk.injEq]
    refine ⟨trivial, trivial, by omega⟩
  · obtain rfl : (⟨xy, xm + 1, 1⟩ : PyDate) = z := by injection h
    unfold prevDayOpt
    simp only
    have em : xm + 1 - 1 = xm := by omega
    rw [if_neg (by omega), if_pos (by omega), em]
    simp only [Option.some.injEq, PyDate.mk.injEq]
    refine ⟨trivial, trivial, by omega⟩
  · obtain rfl : (⟨xy + 1, 1, 1⟩ : PyDate) = z := by injection h
    have hm12 : xm = 12 := by omega
    subst hm12
    have h31 : daysInMonth xy 12 = 31 := by
      unfold daysInMonth
      norm_num
    have ey : xy + 1 - 1 = xy := by omega
    unfold prevDayOpt
    simp only
    rw [if_neg (by omega), if_neg (by omega), if_pos (by omega), ey]
    simp only [Option.some.injEq, PyDate.mk.injEq]
    refine ⟨trivial, trivial, by omega⟩

theorem nextDay_prevDay {x z : PyDate} (hx : validD x = true)
    (h : prevDayOpt x = some z) : nextDayOpt z = some x := by
  obtain ⟨xy, xm, xd⟩ := x
  obtain ⟨hy1, hy2, hm1, hm2, hd1, hd2⟩ := validD_elim hx
  simp only at hy1 hy2 hm1 hm2 hd1 hd2
  unfold prevDayOpt at h
  simp only at h
  split_ifs at h with h1 h2 h3
  · obtain rfl : (⟨xy, xm, xd - 1⟩ : PyDate) = z := by injection h
    unfold nextDayOpt
    simp only
    rw [if_pos (by omega)]
    simp only [Option.some.injEq, PyDate.mk.injEq]
    refine ⟨trivial, trivial, by omega⟩
  · obtain rfl : (⟨xy, xm - 1, daysInMonth xy (xm - 1)⟩ : PyDate) = z := by injection h
    unfold nextDayOpt
    simp only
    have em : xm - 1 + 1 = xm := by omega
    rw [if_neg (by omega), if_pos (by omega), em]
    simp only [Option.some.injEq, PyDate.mk.injEq]
    refine ⟨trivial, trivial, by omega⟩
  · obtain rfl : (⟨xy - 1, 12, 31⟩ : PyDate) = z := by injection h
    have hm1e : xm = 1 := by omega
    subst hm1e
    have hd1e : xd = 1 := by omega
    have h31 : daysInMonth (xy - 1) 12 = 31 := by
      unfold daysInMonth
      norm_num
    have ey : xy - 1 + 1 = xy := by omega
    unfold nextDayOpt
    simp only
    rw [if_neg (by omega), if_neg (by omega), if_pos (by omega), ey]
    simp only [Option.some.injEq, PyDate.mk.injEq]
    refine ⟨trivial, trivial, by omega⟩

theorem addDaysOpt_valid :
    ∀ {n : Nat} {x z : PyDate}, validD x = true → addDaysOpt n x = some z →
      validD z = true
  | 0, x, z, hx, h => by
    obtain rfl : x = z := by simpa [addDaysOpt] using h
    exact hx
  | n + 1, x, z, hx, h => by
    unfold addDaysOpt at h
    cases hw : nextDayOpt x with
    | none => rw [hw] at h; exact absurd h (by simp)
    | some w =>
      rw [hw] at h
      simp only [Option.some_bind] at h
      exact addDaysOpt_valid (nextDayOpt_valid hx hw) h

theorem subDaysOpt_valid :
    ∀ {n : Nat} {x z : PyDate}, validD x = true → subDaysOpt n x = some z →
      validD z = true
  | 0, x, z, hx, h => by
    obtain rfl : x = z := by simpa [subDaysOpt] using h
    exact hx
  | n + 1, x, z, hx, h => by
    unfold subDaysOpt at h
    cases hw : prevDayOpt x with
    | none => rw [hw] at h; exact absurd h (by simp)
    | some w =>
      rw [hw] at h
      simp only [Option.some_bind] at h
      exact subDaysOpt_valid (prevDayOpt_valid hx hw) h

theorem subDaysOpt_succ_swap (n : Nat) (z : PyDate) :
    subDaysOpt (n + 1) z = (subDaysOpt n z).bind prevDayOpt := by
  induction n generalizing z with
  | zero => simp [subDaysOpt]
  | succ n ih =>
    show (prevDayOpt z).bind (subDaysOpt (n + 1)) =
      ((prevDayOpt z).bind (subDaysOpt n)).bind prevDayOpt
    rw [Option.bind_assoc]
    cases prevDayOpt z with
    | none => rfl
    | some w =>
      simp only [Option.some_bind]
      exact ih w

theorem addDaysOpt_succ_swap (n : Nat) (z : PyDate) :
    addDaysOpt (n + 1) z = (addDaysOpt n z).bind nextDayOpt := by
  induction n generalizing z with
  | zero => simp [addDaysOpt]
  | succ n ih =>
    show (nextDayOpt z).bind (addDaysOpt (n + 1)) =
      ((nextDayOpt z).bind (addDaysOpt n)).bind nextDayOpt
    rw [Option.bind_assoc]
    cases nextDayOpt z with
    | none => rfl
    | some w =>
      simp only [Option.some_bind]
      exact ih w

theorem subDays_addDays :
    ∀ {n : Nat} {x z : PyDate}, validD x = true → addDaysOpt n x = some z →
      subDaysOpt n z = some x
  | 0, x, z, hx, h => by
    obtain rfl : x = z := by simpa [addDaysOpt] using h
    rfl
  | n + 1, x, z, hx, h => by
    unfold addDaysOpt at h
    cases hw : nextDayOpt x with
    | none => rw [hw] at h; exact absurd h (by simp)
    | some w =>
      rw [hw] at h
      simp only [Option.some_bind] at h
      have ihs : subDaysOpt n z = some w := subDays_addDays (nextDayOpt_valid hx hw) h
      rw [subDaysOpt_succ_swap, ihs]
      simp only [Option.some_bind]
      exact prevDay_nextDay hx hw

theorem addDays_subDays :
    ∀ {n : Nat} {x z : PyDate}, validD x = true → subDaysOpt n x = some z →
      addDaysOpt n z = some x
  | 0, x, z, hx, h => by
    obtain rfl : x = z := by simpa [subDaysOpt] using h
    rfl
  | n + 1, x, z, hx, h => by
    unfold subDaysOpt at h
    cases hw : prevDayOpt x with
    | none => rw [hw] at h; exact absurd h (by simp)
    | some w =>
      rw [hw] at h
      simp only [Option.some_bind] at h
      have ihs : addDaysOpt n z = some w := addDays_subDays (prevDayOpt_valid hx hw) h
      rw [addDaysOpt_succ_swap, ihs]
      simp only [Option.some_bind]
      exact nextDay_prevDay hx hw

theorem is_ymd_ok_elim {s y0 m0 d0 : List Char} (h : is_ymd s = .ok true)
    (hs : splitOnChar '-' s = [y0, m0, d0]) : validInstance ⟨y0, m0, d0⟩ = true := by
  unfold is_ymd at h
  split_ifs at h with hshape
  · exact absurd h (by simp)
  · rw [hs] at h
    simp only at h
    unfold validInstance
    simp only
    split at h
    next yi mi di hy hm hd =>
      split_ifs at h with hfits
      injection h with h2
    next => exact absurd h (by simp)

theorem mkYMDFromString_ok_elim {s : List Char} {a : YMDDate}
    (h : mkYMDFromString s = .ok a) :
    is_ymd s = .ok true ∧ splitOnChar '-' s = [a.year, a.month, a.day] := by
  unfold mkYMDFromString at h
  split at h
  next hymd =>
    split at h
    next y0 m0 d0 hs =>
      obtain rfl : (⟨y0, m0, d0⟩ : YMDDate) = a := by injection h
      exact ⟨hymd, hs⟩
    next => exact absurd h (by simp)
  next => exact absurd h (by simp)
  next e he => exact absurd h (by simp)

/-! ### Characterizing `n_days` -/

theorem n_days_ok_elim {a b : YMDDate} {x : PyDate} {d : Int}
    (hx : a.to_datetime = some x) (h : YMDDate.n_days a d = .ok b) :
    ∃ z, validD z = true ∧ b = canonicalYMD z ∧
      (if d > 0 then addDaysOpt d.toNat x = some z
       else if d < 0 then subDaysOpt (-d).toNat x = some z
       else z = x) := by
  have hvx : validD x = true := (to_date_elim hx).2.2.2
  unfold YMDDate.n_days at h
  rw [hx] at h
  simp only at h
  split_ifs at h with h1 h2
  · cases hz : addDaysOpt d.toNat x with
    | none => rw [hz] at h; simp at h
    | some z =>
      rw [hz] at h
      simp only at h
      have hvz : validD z = true := addDaysOpt_valid hvx hz
      rw [mkYMDFromDatetime_valid hvz] at h
      obtain rfl : canonicalYMD z = b := by injection h
      refine ⟨z, hvz, rfl, ?_⟩
      rw [if_pos h1]
  · cases hz : subDaysOpt (-d).toNat x with
    | none => rw [hz] at h; simp at h
    | some z =>
      rw [hz] at h
      simp only at h
      have hvz : validD z = true := subDaysOpt_valid hvx hz
      rw [mkYMDFromDatetime_valid hvz] at h
      obtain rfl : canonicalYMD z = b := by injection h
      refine ⟨z, hvz, rfl, ?_⟩
      rw [if_neg h1, if_pos h2]
  · rw [mkYMDFromDatetime_valid hvx] at h
    obtain rfl : canonicalYMD x = b := by injection h
    refine ⟨x, hvx, rfl, ?_⟩
    rw [if_neg h1, if_neg h2]

theorem n_days_eval_add {b : YMDDate} {z x2 : PyDate} {e : Int}
    (hz : b.to_datetime = some z) (he : e > 0) (hs : addDaysOpt e.toNat z = some x2) :
    YMDDate.n_days b e = .ok (canonicalYMD x2) := by
  have hvz : validD z = true := (to_date_elim hz).2.2.2
  unfold YMDDate.n_days
  simp only [hz]
  rw [if_pos he]
  simp only [hs]
  exact mkYMDFromDatetime_valid (addDaysOpt_valid hvz hs)

theorem n_days_eval_sub {b : YMDDate} {z x2 : PyDate} {e : Int}
    (hz : b.to_datetime = some z) (he : e < 0) (hs : subDaysOpt (-e).toNat z = some x2) :
    YMDDate.n_days b e = .ok (canonicalYMD x2) := by
  have hvz : validD z = true := (to_date_elim hz).2.2.2
  unfold YMDDate.n_days
  simp only [hz]
  rw [if_neg (by omega), if_pos he]
  simp only [hs]
  exact mkYMDFromDatetime_valid (subDaysOpt_valid hvz hs)

theorem n_days_eval_zero {b : YMDDate} {z : PyDate} (hz : b.to_datetime = some z) :
    YMDDate.n_days b 0 = .ok (canonicalYMD z) := by
  have hvz : validD z = true := (to_date_elim hz).2.2.2
  unfold YMDDate.n_days
  simp only [hz]
  rw [if_neg (by omega), if_neg (by omega)]
  exact mkYMDFromDatetime_valid hvz

theorem mkYMDFromDate_ok_elim {x : PyDate} {a : YMDDate}
    (h : mkYMDFromDate x = .ok a) : validInstance a = true := by
  unfold mkYMDFromDate at h
  split at h
  next hymd =>
    split at h
    next y0 m0 d0 hs =>
      obtain rfl : (⟨y0, m0, d0⟩ : YMDDate) = a := by injection h
      exact is_ymd_ok_elim hymd hs
    next => exact absurd h (by simp)
  next => exact absurd h (by simp)
  next e he => exact absurd h (by simp)

theorem mkYMDFromString_valid {s : List Char} {a : YMDDate}
    (h : mkYMDFromString s = .ok a) : validInstance a = true := by
  obtain ⟨hymd, hs⟩ := mkYMDFromString_ok_elim h
  exact is_ymd_ok_elim hymd hs

theorem n_days_valid {a b : YMDDate} {d : Int}
    (h : YMDDate.n_days a d = .ok b) : validInstance b = true := by
  unfold YMDDate.n_days at h
  split at h
  next => exact absurd h (by simp)
  next x hx =>
    split_ifs at h with h1 h2
    all_goals
      first
        | (split at h
           next => exact mkYMDFromDate_ok_elim h
           next => exact absurd h (by simp))
        | exact mkYMDFromDate_ok_elim h

theorem n_months_valid {a b : YMDDate} {n wpm dpm : Int} {u : List Char}
    (h : YMDDate.n_months a n u wpm dpm = .ok b) : validInstance b = true := by
  unfold YMDDate.n_months at h
  split_ifs at h with h1 h2 h3
  all_goals repeat split at h
  all_goals
    first
      | exact mkYMDFromDate_ok_elim h
      | exact absurd h (by simp)

theorem n_years_valid {a b : YMDDate} {n dpy wpy : Int} {u : List Char}
    (h : YMDDate.n_years a n u dpy wpy = .ok b) : validInstance b = true := by
  unfold YMDDate.n_years at h
  split_ifs at h with h1 h2 h3
  all_goals repeat split at h
  all_goals
    first
      | exact mkYMDFromDate_ok_elim h
      | exact absurd h (by simp)

theorem n_months_zero {a : YMDDate} {x : PyDate} (hx : a.to_datetime = some x)
    (u : List Char) (wpm dpm : Int) :
    YMDDate.n_months a 0 u wpm dpm = .ok (canonicalYMD x) := by
  unfold YMDDate.n_months
  rw [if_pos rfl]
  simp only [hx]
  exact mkYMDFromDatetime_valid (to_date_elim hx).2.2.2

theorem n_years_zero {a : YMDDate} {x : PyDate} (hx : a.to_datetime = some x)
    (u : List Char) (dpy wpy : Int) :
    YMDDate.n_years a 0 u dpy wpy = .ok (canonicalYMD x) := by
  unfold YMDDate.n_years
  rw [if_pos rfl]
  simp only [hx]
  exact mkYMDFromDatetime_valid (to_date_elim hx).2.2.2

theorem dateLt_cases (x z : PyDate) :
    (dateLt z x = true ∧ dateLt x z = false ∧ x ≠ z) ∨
    (dateLt z x = false ∧ dateLt x z = true ∧ x ≠ z) ∨
    (dateLt z x = false ∧ dateLt x z = false ∧ x = z) := by
  obtain ⟨xy, xm, xd⟩ := x
  obtain ⟨zy, zm, zd⟩ := z
  simp only [dateLt, decide_eq_true_eq, decide_eq_false_iff_not, PyDate.mk.injEq, ne_eq]
  omega

/-! ### Claim theorems -/

/-- C2 (code_bug evidence): the regex of `is_ymd` is matched with `re.match`
and no end anchor, so `"2024-01-015"` — which is NOT of the exact
`YYYY-MM-DD` shape the docstring and spec describe — is accepted, and
`"2024-01-01-01"` raises an uncaught `ValueError` instead of returning a
boolean.  Exactly-shaped inputs behave as specified (leap day accepted,
non-leap `02-29` and year 0 rejected). -/
theorem C2_regex_unanchored_eval :
    is_ymd ("2024-01-015".toList) = .ok true ∧
    specExactShape ("2024-01-015".toList) = false ∧
    is_ymd ("2024-01-01-01".toList) = .error PyErr.valueError ∧
    specExactShape ("2024-02-29".toList) = true ∧
    is_ymd ("2024-02-29".toList) = .ok true ∧
    is_ymd ("2023-02-29".toList) = .ok false ∧
    is_ymd ("0000-01-01".toList) = .ok false :=
  ⟨rfl, rfl, rfl, rfl, rfl, rfl, rfl⟩

/-- C3 (confirmed): for every calendar-valid string of the exact
`YYYY-MM-DD` shape (4 digits, hyphen, 2 digits, hyphen, 2 digits),
constructing a `YMDDate` succeeds and `__str__` returns exactly the original
string, original zero-padding included. -/
theorem C3_roundtrip (y1 y2 y3 y4 m1 m2 d1 d2 : Char)
    (h1 : isDigitC y1 = true) (h2 : isDigitC y2 = true) (h3 : isDigitC y3 = true)
    (h4 : isDigitC y4 = true) (h5 : isDigitC m1 = true) (h6 : isDigitC m2 = true)
    (h7 : isDigitC d1 = true) (h8 : isDigitC d2 = true)
    (hv : dateValid
      (1000 * digitVal y1 + 100 * digitVal y2 + 10 * digitVal y3 + digitVal y4)
      (10 * digitVal m1 + digitVal m2) (10 * digitVal d1 + digitVal d2) = true) :
    (mkYMDFromString [y1, y2, y3, y4, '-', m1, m2, '-', d1, d2]).map YMDDate.ymd_str =
      .ok [y1, y2, y3, y4, '-', m1, m2, '-', d1, d2] := by
  rw [mkYMDFromString_exact h1 h2 h3 h4 h5 h6 h7 h8 hv]
  rfl

/-- C3 witness: the leap day `"2024-02-29"` round-trips. -/
theorem C3_witness :
    (mkYMDFromString ("2024-02-29".toList)).map YMDDate.ymd_str =
      .ok ("2024-02-29".toList) :=
  C3_roundtrip '2' '0' '2' '4' '0' '2' '2' '9' rfl rfl rfl rfl rfl rfl rfl rfl (by decide)

/-- C5 (confirmed): whenever construction — from a string, a structural
date, or a date-time — returns an instance instead of raising, the stored
triple parses to integers accepted by `datetime.date`; and every arithmetic
operation producing a new instance (`n_days`, `n_months`, `n_years`)
preserves this invariant, because each re-enters the constructor. -/
theorem C5_construction_invariant :
    (∀ s a, mkYMDFromString s = .ok a → validInstance a = true) ∧
    (∀ x a, mkYMDFromDate x = .ok a → validInstance a = true) ∧
    (∀ x a, mkYMDFromDatetime x = .ok a → validInstance a = true) ∧
    (∀ a d b, YMDDate.n_days a d = .ok b → validInstance b = true) ∧
    (∀ a n u wpm dpm b, YMDDate.n_months a n u wpm dpm = .ok b →
      validInstance b = true) ∧
    (∀ a n u dpy wpy b, YMDDate.n_years a n u dpy wpy = .ok b →
      validInstance b = true) :=
  ⟨fun _ _ h => mkYMDFromString_valid h,
   fun _ _ h => mkYMDFromDate_ok_elim h,
   fun _ _ h => mkYMDFromDate_ok_elim h,
   fun _ _ _ h => n_days_valid h,
   fun _ _ _ _ _ _ h => n_months_valid h,
   fun _ _ _ _ _ _ h => n_years_valid h⟩

/-- C5 witness: a string-constructed instance and an `n_days` result both
satisfy the invariant. -/
theorem C5_witness :
    validInstance ⟨("2024".toList), ("02".toList), ("29".toList)⟩ = true ∧
    validInstance (canonicalYMD ⟨2023, 12, 31⟩) = true :=
  ⟨C5_construction_invariant.1 ("2024-02-29".toList)
      ⟨("2024".toList), ("02".toList), ("29".toList)⟩ rfl,
   C5_construction_invariant.2.2.2.1 (canonicalYMD ⟨2023, 12, 30⟩) 1
      (canonicalYMD ⟨2023, 12, 31⟩) rfl⟩

/-- C6 counterexample: the claim quantifies over EVERY integer `d`, but
`n_days` raises `OverflowError` past the end of the supported date range, so
for the constructed instance `9999-12-31` and `d = 1` no instance is
produced at all. -/
theorem C6_counterexample :
    mkYMDFromString ("9999-12-31".toList) =
      .ok ⟨("9999".toList), ("12".toList), ("31".toList)⟩ ∧
    YMDDate.n_days ⟨("9999".toList), ("12".toList), ("31".toList)⟩ 1 =
      .error PyErr.overflowError :=
  ⟨rfl, rfl⟩

/-- C6 (corrected): whenever `n_days d` does return an instance `b`, applying
`n_days (-d)` to `b` returns the canonical instance of the original date
triple, which is equal-valued (integer components) to the original instance;
and `n_days 0` likewise returns an equal-valued canonical copy.  The
amendment restricts the original "for every integer d" to offsets that stay
inside the `datetime` range 0001-01-01 .. 9999-12-31. -/
theorem C6_offset_days_roundtrip (a b : YMDDate) (d : Int) (x : PyDate)
    (hx : a.to_datetime = some x) (hb : YMDDate.n_days a d = .ok b) :
    (YMDDate.n_days b (-d) = .ok (canonicalYMD x) ∧
      valueEq (canonicalYMD x) a = true) ∧
    YMDDate.n_days a 0 = .ok (canonicalYMD x) := by
  have hvx : validD x = true := (to_date_elim hx).2.2.2
  obtain ⟨z, hvz, rfl, hcond⟩ := n_days_ok_elim hx hb
  have hbz : (canonicalYMD z).to_datetime = some z := to_datetime_canonicalYMD hvz
  refine ⟨⟨?_, valueEq_canonicalYMD hx⟩, n_days_eval_zero hx⟩
  rcases lt_trichotomy d 0 with hd | hd | hd
  · rw [if_neg (by omega), if_pos hd] at hcond
    have hadd : addDaysOpt (-d).toNat z = some x := addDays_subDays hvx hcond
    exact n_days_eval_add hbz (by omega) hadd
  · subst hd
    rw [if_neg (by omega), if_neg (by omega)] at hcond
    subst hcond
    have e0 : (-(0 : Int)) = 0 := by omega
    rw [e0]
    exact n_days_eval_zero hbz
  · rw [if_pos hd] at hcond
    have hsub : subDaysOpt d.toNat z = some x := subDays_addDays hvx hcond
    have hsub2 : subDaysOpt (-(-d)).toNat z = some x := by
      rw [neg_neg]
      exact hsub
    exact n_days_eval_sub hbz (by omega) hsub2

/-- C6 witness: a five-day round trip from 2024-01-15. -/
theorem C6_witness :
    (YMDDate.n_days (canonicalYMD ⟨2024, 1, 20⟩) (-5) =
        .ok (canonicalYMD ⟨2024, 1, 15⟩) ∧
      valueEq (canonicalYMD ⟨2024, 1, 15⟩) (canonicalYMD ⟨2024, 1, 15⟩) = true) ∧
    YMDDate.n_days (canonicalYMD ⟨2024, 1, 15⟩) 0 = .ok (canonicalYMD ⟨2024, 1, 15⟩) :=
  C6_offset_days_roundtrip (canonicalYMD ⟨2024, 1, 15⟩) (canonicalYMD ⟨2024, 1, 20⟩)
    5 ⟨2024, 1, 15⟩ rfl rfl

/-- C8 counterexample: with `n = 0` the unit selector is never inspected —
`n_months(0, "X")` returns a copy instead of raising, because the zero check
precedes the unit check; so the claim's "for every integer n" fails at
`n = 0`. -/
theorem C8_counterexample :
    mkYMDFromString ("2024-01-15".toList) =
      .ok ⟨("2024".toList), ("01".toList), ("15".toList)⟩ ∧
    YMDDate.n_months ⟨("2024".toList), ("01".toList), ("15".toList)⟩ 0 ("X".toList) 4 30 =
      .ok ⟨("2024".toList), ("01".toList), ("15".toList)⟩ :=
  ⟨rfl, rfl⟩

/-- C8 (corrected): for every NONZERO `n` and every unit selector that is
neither week-mode nor day-mode up to case (`upper()` not `"W"` and not
`"D"`), `n_months` raises `ValueError`; the amendment excludes `n = 0`,
which returns a copy before the unit selector is validated. -/
theorem C8_bad_unit_error (a : YMDDate) (n : Int) (u : List Char) (wpm dpm : Int)
    (hn : n ≠ 0) (hW : u.map Char.toUpper ≠ ['W']) (hD : u.map Char.toUpper ≠ ['D']) :
    YMDDate.n_months a n u wpm dpm = .error PyErr.valueError := by
  unfold YMDDate.n_months
  rw [if_neg hn, if_neg hW, if_neg hD]

/-- C8 witness: unit `"X"` with `n = 1` raises. -/
theorem C8_witness :
    YMDDate.n_months ⟨("2024".toList), ("01".toList), ("15".toList)⟩ 1 ("X".toList) 4 30 =
      .error PyErr.valueError :=
  C8_bad_unit_error ⟨("2024".toList), ("01".toList), ("15".toList)⟩ 1 ("X".toList) 4 30
    (by decide) (by decide) (by decide)

/-- C10 (confirmed): with `n = 0`, both `n_months` and `n_years` return an
equal-valued (same integer components) canonical copy for EVERY unit
selector string, recognized or not, because the zero check runs before the
unit selector is validated. -/
theorem C10_zero_before_unit_validation (a : YMDDate) (x : PyDate)
    (u1 u2 : List Char) (wpm dpm dpy wpy : Int) (hx : a.to_datetime = some x) :
    YMDDate.n_months a 0 u1 wpm dpm = .ok (canonicalYMD x) ∧
    YMDDate.n_years a 0 u2 dpy wpy = .ok (canonicalYMD x) ∧
    valueEq (canonicalYMD x) a = true :=
  ⟨n_months_zero hx u1 wpm dpm, n_years_zero hx u2 dpy wpy, valueEq_canonicalYMD hx⟩

/-- C10 witness: unrecognized units `"X"` and `"q"` with `n = 0`. -/
theorem C10_witness :
    YMDDate.n_months ⟨("2024".toList), ("01".toList), ("15".toList)⟩ 0 ("X".toList) 4 30 =
      .ok (canonicalYMD ⟨2024, 1, 15⟩) ∧
    YMDDate.n_years ⟨("2024".toList), ("01".toList), ("15".toList)⟩ 0 ("q".toList) 365 52 =
      .ok (canonicalYMD ⟨2024, 1, 15⟩) ∧
    valueEq (canonicalYMD ⟨2024, 1, 15⟩)
      ⟨("2024".toList), ("01".toList), ("15".toList)⟩ = true :=
  C10_zero_before_unit_validation ⟨("2024".toList), ("01".toList), ("15".toList)⟩
    ⟨2024, 1, 15⟩ ("X".toList) ("q".toList) 4 30 365 52 rfl

/-- C1 counterexample: the unanchored regex lets `"2024-01-015"` through, so
an instance storing day `"015"` is constructible; it has the same integer
components as the instance from `"2024-01-15"`, yet `__eq__`, which compares
the stored STRINGS, returns false — refuting "equal iff integers equal" over
all constructed instances. -/
theorem C1_counterexample :
    mkYMDFromString ("2024-01-015".toList) =
      .ok ⟨("2024".toList), ("01".toList), ("015".toList)⟩ ∧
    mkYMDFromString ("2024-01-15".toList) =
      .ok ⟨("2024".toList), ("01".toList), ("15".toList)⟩ ∧
    pyInt ("015".toList) = some 15 ∧ pyInt ("15".toList) = some 15 ∧
    YMDDate.eqY ⟨("2024".toList), ("01".toList), ("015".toList)⟩
      ⟨("2024".toList), ("01".toList), ("15".toList)⟩ = false :=
  ⟨rfl, rfl, rfl, rfl, rfl⟩

/-- C1 (corrected): `__eq__` compares the stored component strings; on
instances whose components are canonically zero-padded — every instance not
built from a malformed-but-accepted string — this coincides with equality of
the integer components, as the original claim states. -/
theorem C1_eq_iff_int_on_canonical (a b : YMDDate)
    (ha : isCanonical a = true) (hb : isCanonical b = true) :
    YMDDate.eqY a b = true ↔
      (pyInt a.year = pyInt b.year ∧ pyInt a.month = pyInt b.month ∧
       pyInt a.day = pyInt b.day) := by
  obtain ⟨x, hvx, hdx, rfl⟩ := isCanonical_elim ha
  obtain ⟨z, hvz, hdz, rfl⟩ := isCanonical_elim hb
  obtain ⟨hx1, hx2, hx3, hx4, hx5, hx6⟩ := validD_elim hvx
  obtain ⟨hz1, hz2, hz3, hz4, hz5, hz6⟩ := validD_elim hvz
  have hubx := daysInMonth_ub x.y x.m
  have hubz := daysInMonth_ub z.y z.m
  constructor
  · intro he
    rw [eqY_iff] at he
    obtain ⟨e1, e2, e3⟩ := he
    exact ⟨by rw [e1], by rw [e2], by rw [e3]⟩
  · intro he
    obtain ⟨e1, e2, e3⟩ := he
    simp only [canonicalYMD] at e1 e2 e3
    rw [pyInt_pad4 (by omega : (0 : Int) ≤ x.y) (by omega : x.y ≤ 9999),
      pyInt_pad4 (by omega : (0 : Int) ≤ z.y) (by omega : z.y ≤ 9999)] at e1
    rw [pyInt_pad2 (by omega : (0 : Int) ≤ x.m) (by omega : x.m ≤ 99),
      pyInt_pad2 (by omega : (0 : Int) ≤ z.m) (by omega : z.m ≤ 99)] at e2
    rw [pyInt_pad2 (by omega : (0 : Int) ≤ x.d) (by omega : x.d ≤ 99),
      pyInt_pad2 (by omega : (0 : Int) ≤ z.d) (by omega : z.d ≤ 99)] at e3
    have hxz : x = z := by
      obtain ⟨xy, xm, xd⟩ := x
      obtain ⟨zy, zm, zd⟩ := z
      simp only [Option.some.injEq] at e1 e2 e3
      rw [PyDate.mk.injEq]
      exact ⟨e1, e2, e3⟩
    rw [hxz, eqY_iff]
    exact ⟨rfl, rfl, rfl⟩

/-- C1 witness: two canonical instances of the same leap day are equal with
equal integer components. -/
theorem C1_witness :
    YMDDate.eqY (canonicalYMD ⟨2024, 2, 29⟩) (canonicalYMD ⟨2024, 2, 29⟩) = true :=
  (C1_eq_iff_int_on_canonical (canonicalYMD ⟨2024, 2, 29⟩) (canonicalYMD ⟨2024, 2, 29⟩)
    rfl rfl).mpr ⟨rfl, rfl, rfl⟩

/-- C4 counterexample: for the constructed pair from `"2024-01-015"` and
`"2024-01-15"` (same underlying date, different stored strings), none of the
three alternatives holds: `__gt__` is false, derived less-than
(`__ge__ = false`) is false, and `__eq__` is false — refuting
exactly-one-of-three over all constructed instances. -/
theorem C4_counterexample :
    mkYMDFromString ("2024-01-015".toList) =
      .ok ⟨("2024".toList), ("01".toList), ("015".toList)⟩ ∧
    mkYMDFromString ("2024-01-15".toList) =
      .ok ⟨("2024".toList), ("01".toList), ("15".toList)⟩ ∧
    YMDDate.gtY ⟨("2024".toList), ("01".toList), ("015".toList)⟩
      ⟨("2024".toList), ("01".toList), ("15".toList)⟩ = some false ∧
    YMDDate.geY ⟨("2024".toList), ("01".toList), ("015".toList)⟩
      ⟨("2024".toList), ("01".toList), ("15".toList)⟩ = some true ∧
    YMDDate.eqY ⟨("2024".toList), ("01".toList), ("015".toList)⟩
      ⟨("2024".toList), ("01".toList), ("15".toList)⟩ = false :=
  ⟨rfl, rfl, rfl, rfl, rfl⟩

/-- C4 (corrected): on instances with canonically padded components —
every instance not built from a malformed-but-accepted string — exactly one
of `A > B`, `A < B` (derived as `__ge__` returning false), `A == B` holds. -/
theorem C4_trichotomy_on_canonical (a b : YMDDate)
    (ha : isCanonical a = true) (hb : isCanonical b = true) :
    (YMDDate.gtY a b = some true ∧ ¬YMDDate.geY a b = some false ∧
      ¬YMDDate.eqY a b = true) ∨
    (¬YMDDate.gtY a b = some true ∧ YMDDate.geY a b = some false ∧
      ¬YMDDate.eqY a b = true) ∨
    (¬YMDDate.gtY a b = some true ∧ ¬YMDDate.geY a b = some false ∧
      YMDDate.eqY a b = true) := by
  obtain ⟨x, hvx, hdx, rfl⟩ := isCanonical_elim ha
  obtain ⟨z, hvz, hdz, rfl⟩ := isCanonical_elim hb
  have hgt : YMDDate.gtY (canonicalYMD x) (canonicalYMD z) = some (dateLt z x) := by
    unfold YMDDate.gtY
    rw [to_date_canonicalYMD hvx, to_date_canonicalYMD hvz]
  have hge : YMDDate.geY (canonicalYMD x) (canonicalYMD z) = some (!dateLt x z) := by
    unfold YMDDate.geY
    rw [to_date_canonicalYMD hvx, to_date_canonicalYMD hvz]
  have heq : YMDDate.eqY (canonicalYMD x) (canonicalYMD z) = true ↔ x = z := by
    constructor
    · intro he
      rw [eqY_iff] at he
      obtain ⟨e1, e2, e3⟩ := he
      simp only [canonicalYMD] at e1 e2 e3
      apply canonicalYMD_inj hvx hvz
      unfold canonicalYMD
      rw [YMDDate.mk.injEq]
      exact ⟨e1, e2, e3⟩
    · intro he
      rw [he, eqY_iff]
      exact ⟨rfl, rfl, rfl⟩
  rcases dateLt_cases x z with ⟨t1, t2, t3⟩ | ⟨t1, t2, t3⟩ | ⟨t1, t2, t3⟩
  · left
    refine ⟨by rw [hgt, t1], by rw [hge, t2]; simp, by simp [heq, t3]⟩
  · right; left
    refine ⟨by rw [hgt, t1]; simp, by rw [hge, t2]; rfl, by simp [heq, t3]⟩
  · right; right
    refine ⟨by rw [hgt, t1]; simp, by rw [hge, t2]; simp, heq.mpr t3⟩

/-- C4 witness: a concrete canonical pair (January 15 versus March 1). -/
theorem C4_witness :
    (YMDDate.gtY (canonicalYMD ⟨2024, 1, 15⟩) (canonicalYMD ⟨2024, 3, 1⟩) = some true ∧
      ¬YMDDate.geY (canonicalYMD ⟨2024, 1, 15⟩) (canonicalYMD ⟨2024, 3, 1⟩) = some false ∧
      ¬YMDDate.eqY (canonicalYMD ⟨2024, 1, 15⟩) (canonicalYMD ⟨2024, 3, 1⟩) = true) ∨
    (¬YMDDate.gtY (canonicalYMD ⟨2024, 1, 15⟩) (canonicalYMD ⟨2024, 3, 1⟩) = some true ∧
      YMDDate.geY (canonicalYMD ⟨2024, 1, 15⟩) (canonicalYMD ⟨2024, 3, 1⟩) = some false ∧
      ¬YMDDate.eqY (canonicalYMD ⟨2024, 1, 15⟩) (canonicalYMD ⟨2024, 3, 1⟩) = true) ∨
    (¬YMDDate.gtY (canonicalYMD ⟨2024, 1, 15⟩) (canonicalYMD ⟨2024, 3, 1⟩) = some true ∧
      ¬YMDDate.geY (canonicalYMD ⟨2024, 1, 15⟩) (canonicalYMD ⟨2024, 3, 1⟩) = some false ∧
      YMDDate.eqY (canonicalYMD ⟨2024, 1, 15⟩) (canonicalYMD ⟨2024, 3, 1⟩) = true) :=
  C4_trichotomy_on_canonical (canonicalYMD ⟨2024, 1, 15⟩) (canonicalYMD ⟨2024, 3, 1⟩)
    rfl rfl

theorem is_holiday_eq_loop (a : YMDDate) (hs : List HolidayItem) :
    YMDDate.is_holiday a hs = isHolidayLoop a hs := by
  unfold YMDDate.is_holiday
  cases hs with
  | nil => simp [isHolidayLoop]
  | cons h t => simp

/-- C7 counterexample: the candidate `"2024-01-99999999999"` fails to parse
as a valid YMD date (its day group overflows the C `int` that
`datetime.date` converts its arguments into), yet `is_holiday` does not
return the null marker: the `OverflowError` is not a `ValueError`, escapes
the `except ValueError` at line 161, and propagates out of `is_holiday`. -/
theorem C7_counterexample :
    mkYMDFromString ("2024-01-15".toList) =
      .ok ⟨("2024".toList), ("01".toList), ("15".toList)⟩ ∧
    mkYMDFromString ("2024-01-99999999999".toList) = .error PyErr.overflowError ∧
    YMDDate.is_holiday ⟨("2024".toList), ("01".toList), ("15".toList)⟩
      [.txt ("2024-01-99999999999".toList)] = .error PyErr.overflowError :=
  ⟨rfl, rfl, rfl⟩

/-- C7 (corrected): `is_holiday` returns false on the empty list; a string
candidate whose construction raises `ValueError` makes it return the
tri-state `None` (for ASCII candidate text, on which the `int()` model is
exact); a candidate whose construction raises `OverflowError` (component
beyond the C `int` range) makes `is_holiday` itself raise instead of
returning `None`; the first candidate equal to the instance returns true;
otherwise the scan continues, returning false at exhaustion (non-string,
non-YMDDate entries are skipped). -/
theorem C7_is_holiday_tristate :
    (∀ a, YMDDate.is_holiday a [] = .ok (some false)) ∧
    (∀ a t rest, (∀ c ∈ t, c.toNat ≤ 127) →
      mkYMDFromString t = .error PyErr.valueError →
      YMDDate.is_holiday a (.txt t :: rest) = .ok none) ∧
    (∀ a t rest, mkYMDFromString t = .error PyErr.overflowError →
      YMDDate.is_holiday a (.txt t :: rest) = .error PyErr.overflowError) ∧
    (∀ a t rest h, mkYMDFromString t = .ok h → YMDDate.eqY h a = true →
      YMDDate.is_holiday a (.txt t :: rest) = .ok (some true)) ∧
    (∀ a h rest, YMDDate.eqY h a = true →
      YMDDate.is_holiday a (.ymd h :: rest) = .ok (some true)) ∧
    (∀ a t rest h, mkYMDFromString t = .ok h → YMDDate.eqY h a = false →
      YMDDate.is_holiday a (.txt t :: rest) = YMDDate.is_holiday a rest) ∧
    (∀ a h rest, YMDDate.eqY h a = false →
      YMDDate.is_holiday a (.ymd h :: rest) = YMDDate.is_holiday a rest) ∧
    (∀ a rest, YMDDate.is_holiday a (.other :: rest) = YMDDate.is_holiday a rest) := by
  refine ⟨fun a => rfl, ?_, ?_, ?_, ?_, ?_, ?_, ?_⟩
  · intro a t rest hascii hmk
    rw [is_holiday_eq_loop]
    unfold isHolidayLoop
    rw [hmk]
  · intro a t rest hmk
    rw [is_holiday_eq_loop]
    unfold isHolidayLoop
    rw [hmk]
  · intro a t rest h hmk heq
    rw [is_holiday_eq_loop]
    unfold isHolidayLoop
    rw [hmk]
    simp only [heq, if_true]
  · intro a h rest heq
    rw [is_holiday_eq_loop]
    unfold isHolidayLoop
    simp only [heq, if_true]
  · intro a t rest h hmk heq
    rw [is_holiday_eq_loop, is_holiday_eq_loop]
    unfold isHolidayLoop
    rw [hmk]
    simp only [heq, Bool.false_eq_true, if_false]
    cases rest with
    | nil => rfl
    | cons hd tl => cases hd <;> rfl
  · intro a h rest heq
    rw [is_holiday_eq_loop, is_holiday_eq_loop]
    unfold isHolidayLoop
    simp only [heq, Bool.false_eq_true, if_false]
    cases rest with
    | nil => rfl
    | cons hd tl => cases hd <;> rfl
  · intro a rest
    rw [is_holiday_eq_loop, is_holiday_eq_loop]
    unfold isHolidayLoop
    cases rest with
    | nil => rfl
    | cons hd tl => cases hd <;> rfl

/-- C7 witness: empty list, ASCII malformed candidate, overflowing candidate,
matching candidate, and a skipped non-matching candidate, each at concrete
inputs. -/
theorem C7_witness :
    YMDDate.is_holiday ⟨("2024".toList), ("01".toList), ("15".toList)⟩ [] =
      .ok (some false) ∧
    YMDDate.is_holiday ⟨("2024".toList), ("01".toList), ("15".toList)⟩
      [.txt ("bad".toList)] = .ok none ∧
    YMDDate.is_holiday ⟨("2024".toList), ("01".toList), ("15".toList)⟩
      [.txt ("2024-01-21474836480".toList)] = .error PyErr.overflowError ∧
    YMDDate.is_holiday ⟨("2024".toList), ("01".toList), ("15".toList)⟩
      [.txt ("2024-01-15".toList)] = .ok (some true) ∧
    YMDDate.is_holiday ⟨("2024".toList), ("01".toList), ("15".toList)⟩
      [.ymd (canonicalYMD ⟨2023, 1, 1⟩)] =
      YMDDate.is_holiday ⟨("2024".toList), ("01".toList), ("15".toList)⟩ [] :=
  ⟨C7_is_holiday_tristate.1 ⟨("2024".toList), ("01".toList), ("15".toList)⟩,
   C7_is_holiday_tristate.2.1 ⟨("2024".toList), ("01".toList), ("15".toList)⟩
     ("bad".toList) [] (by decide) rfl,
   C7_is_holiday_tristate.2.2.1 ⟨("2024".toList), ("01".toList), ("15".toList)⟩
     ("2024-01-21474836480".toList) [] rfl,
   C7_is_holiday_tristate.2.2.2.1 ⟨("2024".toList), ("01".toList), ("15".toList)⟩
     ("2024-01-15".toList) [] ⟨("2024".toList), ("01".toList), ("15".toList)⟩ rfl rfl,
   C7_is_holiday_tristate.2.2.2.2.2.2.1 ⟨("2024".toList), ("01".toList), ("15".toList)⟩
     (canonicalYMD ⟨2023, 1, 1⟩) [] rfl⟩

/-! ### Order lemmas for the business-day search -/

theorem dateLt_irrefl (x : PyDate) : dateLt x x = false := by
  obtain ⟨xy, xm, xd⟩ := x
  simp only [dateLt, decide_eq_false_iff_not, PyDate.mk.injEq]
  omega

theorem dateLt_trans {x y z : PyDate} (h1 : dateLt x y = true)
    (h2 : dateLt y z = true) : dateLt x z = true := by
  obtain ⟨xy, xm, xd⟩ := x
  obtain ⟨yy, ym, yd⟩ := y
  obtain ⟨zy, zm, zd⟩ := z
  simp only [dateLt, decide_eq_true_eq] at h1 h2 ⊢
  omega

theorem dateLt_next {x z : PyDate} (h : nextDayOpt x = some z) :
    dateLt x z = true := by
  obtain ⟨xy, xm, xd⟩ := x
  unfold nextDayOpt at h
  simp only at h
  split_ifs at h with h1 h2 h3
  · obtain rfl : (⟨xy, xm, xd + 1⟩ : PyDate) = z := by injection h
    simp only [dateLt, decide_eq_true_eq, true_and]
    omega
  · obtain rfl : (⟨xy, xm + 1, 1⟩ : PyDate) = z := by injection h
    simp only [dateLt, decide_eq_true_eq, true_and]
    omega
  · obtain rfl : (⟨xy + 1, 1, 1⟩ : PyDate) = z := by injection h
    simp only [dateLt, decide_eq_true_eq, true_and]
    omega

theorem nextDay_min {x z c : PyDate} (hx : validD x = true) (hc : validD c = true)
    (h : nextDayOpt x = some z) (hlt : dateLt x c = true) : dateLt c z = false := by
  obtain ⟨xy, xm, xd⟩ := x
  obtain ⟨cy, cm, cd⟩ := c
  obtain ⟨hx1, hx2, hx3, hx4, hx5, hx6⟩ := validD_elim hx
  obtain ⟨hc1, hc2, hc3, hc4, hc5, hc6⟩ := validD_elim hc
  simp only at hx1 hx2 hx3 hx4 hx5 hx6 hc1 hc2 hc3 hc4 hc5 hc6
  simp only [dateLt, decide_eq_true_eq] at hlt
  unfold nextDayOpt at h
  simp only at h
  split_ifs at h with h1 h2 h3
  · obtain rfl : (⟨xy, xm, xd + 1⟩ : PyDate) = z := by injection h
    simp only [dateLt, decide_eq_false_iff_not, PyDate.mk.injEq]
    omega
  · obtain rfl : (⟨xy, xm + 1, 1⟩ : PyDate) = z := by injection h
    simp only [dateLt, decide_eq_false_iff_not, PyDate.mk.injEq]
    rcases hlt with hy | ⟨hy, hm | ⟨hm, hd⟩⟩
    · omega
    · omega
    · subst hy
      subst hm
      omega
  · obtain rfl : (⟨xy + 1, 1, 1⟩ : PyDate) = z := by injection h
    simp only [dateLt, decide_eq_false_iff_not, PyDate.mk.injEq]
    rcases hlt with hy | ⟨hy, hm | ⟨hm, hd⟩⟩
    · omega
    · omega
    · subst hy
      subst hm
      omega

theorem nbdLoop_spec (hol : PyDate → Bool) :
    ∀ (fuel : Nat) (y p : PyDate), validD y = true → nbdLoop hol fuel y = some p →
      validD p = true ∧ (hol p || isWeekendD p) = false ∧
      (dateLt y p = true ∨ y = p) ∧
      (∀ c, validD c = true → (dateLt y c = true ∨ y = c) → dateLt c p = true →
        (hol c || isWeekendD c) = true)
  | 0, y, p, hv, h => by simp [nbdLoop] at h
  | fuel + 1, y, p, hv, h => by
    unfold nbdLoop at h
    split_ifs at h with hbad
    · cases hw : nextDayOpt y with
      | none => rw [hw] at h; simp at h
      | some w =>
        rw [hw] at h
        simp only at h
        have hvw := nextDayOpt_valid hv hw
        obtain ⟨hp1, hp2, hp3, hp4⟩ := nbdLoop_spec hol fuel w p hvw h
        have hyw := dateLt_next hw
        refine ⟨hp1, hp2, ?_, ?_⟩
        · left
          rcases hp3 with h3 | rfl
          · exact dateLt_trans hyw h3
          · exact hyw
        · intro c hvc hyc hcp
          rcases hyc with hyc | rfl
          · have hnc : dateLt c w = false := nextDay_min hv hvc hw hyc
            rcases dateLt_cases w c with ⟨u1, u2, u3⟩ | ⟨u1, u2, u3⟩ | ⟨u1, u2, u3⟩
            · exact absurd u1 (by simp [hnc])
            · exact hp4 c hvc (Or.inl u2) hcp
            · exact hp4 c hvc (Or.inr u3) hcp
          · exact hbad
    · obtain rfl : y = p := by injection h
      refine ⟨hv, by simpa using hbad, Or.inr rfl, ?_⟩
      intro c hvc hyc hcp
      exfalso
      rcases hyc with hyc | rfl
      · have : dateLt y y = true := dateLt_trans hyc hcp
        rw [dateLt_irrefl] at this
        exact absurd this (by simp)
      · rw [dateLt_irrefl] at hcp
        exact absurd hcp (by simp)

/-- C9 (confirmed): whenever `next_business_day` returns an instance, that
instance is the canonical rendering of a date `p` that is neither a federal
holiday (abstract external predicate `hol`) nor a weekend, `p` is strictly
after the receiver, and every valid date strictly between the receiver and
`p` is a holiday or a weekend — i.e. `p` is the earliest business day
strictly after the instance.  The while loop is modelled with fuel; the
characterization is of every terminating run. -/
theorem C9_next_business_day (hol : PyDate → Bool) (fuel : Nat) (a b : YMDDate)
    (x : PyDate) (hx : a.to_datetime = some x)
    (hb : YMDDate.next_business_day hol fuel a = some b) :
    ∃ p, b = canonicalYMD p ∧ b.to_date = some p ∧
      hol p = false ∧ isWeekendD p = false ∧ dateLt x p = true ∧
      ∀ c, validD c = true → dateLt x c = true → dateLt c p = true →
        (hol c || isWeekendD c) = true := by
  have hvx : validD x = true := (to_date_elim hx).2.2.2
  unfold YMDDate.next_business_day at hb
  rw [hx] at hb
  simp only at hb
  cases hz : nextDayOpt x with
  | none => rw [hz] at hb; simp at hb
  | some z =>
    rw [hz] at hb
    simp only at hb
    cases hp : nbdLoop hol fuel z with
    | none => rw [hp] at hb; simp at hb
    | some p =>
      rw [hp] at hb
      simp only [Option.map_some'] at hb
      obtain rfl : canonicalYMD p = b := by injection hb
      have hvz := nextDayOpt_valid hvx hz
      obtain ⟨hvp, hbad, hle, hall⟩ := nbdLoop_spec hol fuel z p hvz hp
      have hgood : hol p = false ∧ isWeekendD p = false := by
        simpa [Bool.or_eq_false_iff] using hbad
      have hxz := dateLt_next hz
      refine ⟨p, rfl, to_date_canonicalYMD hvp, hgood.1, hgood.2, ?_, ?_⟩
      · rcases hle with h3 | rfl
        · exact dateLt_trans hxz h3
        · exact hxz
      · intro c hvc hxc hcp
        have hnc : dateLt c z = false := nextDay_min hvx hvc hz hxc
        rcases dateLt_cases z c with ⟨u1, u2, u3⟩ | ⟨u1, u2, u3⟩ | ⟨u1, u2, u3⟩
        · exact absurd u1 (by simp [hnc])
        · exact hall c hvc (Or.inl u2) hcp
        · exact hall c hvc (Or.inr u3) hcp

/-- C9 witness: from Friday 2024-01-05 with no holidays, the loop returns
Monday 2024-01-08, and the characterization holds there. -/
theorem C9_witness :
    ∃ p, canonicalYMD ⟨2024, 1, 8⟩ = canonicalYMD p ∧
      (canonicalYMD ⟨2024, 1, 8⟩).to_date = some p ∧
      (fun _ => false : PyDate → Bool) p = false ∧ isWeekendD p = false ∧
      dateLt ⟨2024, 1, 5⟩ p = true ∧
      ∀ c, validD c = true → dateLt ⟨2024, 1, 5⟩ c = true → dateLt c p = true →
        ((fun _ => false : PyDate → Bool) c || isWeekendD c) = true :=
  C9_next_business_day (fun _ => false) 5 (canonicalYMD ⟨2024, 1, 5⟩)
    (canonicalYMD ⟨2024, 1, 8⟩) ⟨2024, 1, 5⟩ rfl rfl
